/-
Verification of the shape-capture / progress-ledger core of the
poc-job-site-frontend repository.

The embedded code lives in `src/components/MapCanvas.tsx` (calculateMetrics,
the snap-to-vertex click handler of MapEvents) and
`src/components/SiteEditor.tsx` (the SiteEditor state initialisers and the
handlers handleUndo, handleClear, handleFinish, handleSave,
handleAddProgress, handleUpdateProgressStatus, plus the derived values
totalCompleted / progressPercentage / daysRemaining).

JavaScript numbers are embedded as exact rationals (ℚ); `Math.round x` is
`⌊x + 1/2⌋`, `Math.ceil` is `⌈·⌉`, `Math.max` is `max`.  The Leaflet
great-circle distance `L.latLng(a).distanceTo(b)` is an external library
collaborator, so it enters the embedding as an explicit distance parameter
`d : Point → Point → ℚ`; the screen projection `map.latLngToContainerPoint`
likewise as a projector parameter.  Euclidean screen distances are compared
through their squares (the comparisons `dist ≤ t` and `dist < c` between
non-negative reals are equivalent to `dist² ≤ t²` and `dist² < c²`, so the
snap loop over squared distances selects exactly the same vertex).
-/
import Mathlib

namespace JobSite

/-- `Point` from `src/types` (`{lat, lng}` decimal degrees). -/
structure Point where
  lat : ℚ
  lng : ℚ
deriving DecidableEq, Repr, Inhabited

/-- `SiteMetrics` from `src/types`. -/
structure SiteMetrics where
  perimeterMeters : ℚ
  vertexCount : ℕ
  estimatedWalkTimeMinutes : ℚ
deriving DecidableEq, Repr

/-- The status union `'pending' | 'approved' | 'rejected'` of `DailyProgress`. -/
inductive Status where
  | pending
  | approved
  | rejected
deriving DecidableEq, Repr

/-- `DailyProgress` from `src/types`. -/
structure DailyProgress where
  id : String
  date : ℤ
  metersCompleted : ℚ
  status : Status
  notes : Option String
deriving DecidableEq, Repr

/-- `Site` from `src/types`; `?`-optional fields become `Option`. -/
structure Site where
  id : String
  name : String
  createdAt : ℤ
  points : List Point
  metrics : SiteMetrics
  isClosed : Option Bool
  customTileUrl : Option String
  contractorCommitmentPerDay : Option ℚ
  dailyProgress : Option (List DailyProgress)
deriving DecidableEq, Repr

/-- JavaScript `Math.round`: round half toward +∞. -/
def jsRound (q : ℚ) : ℤ := ⌊q + 1/2⌋

/-- `Math.round(q * 100) / 100` — round to 2 decimals. -/
def jsRound2 (q : ℚ) : ℚ := (jsRound (q * 100) : ℚ) / 100

/-- `Math.round(q * 10) / 10` — round to 1 decimal. -/
def jsRound1 (q : ℚ) : ℚ := (jsRound (q * 10) : ℚ) / 10

/-- The walk speed constant `83.33` m/min of `calculateMetrics`. -/
def walkSpeed : ℚ := 8333 / 100

/-- `calculateMetrics` from `MapCanvas.tsx`, with the Leaflet great-circle
distance `p1.distanceTo(p2)` abstracted as the parameter `d`.  The `for`
loop over `i ∈ [0, limit)` accumulating
`d points[i] points[(i+1) % points.length]` is a left fold over
`List.range limit`. -/
def calculateMetrics (d : Point → Point → ℚ) (points : List Point)
    (isClosed : Bool) : SiteMetrics :=
  if points.length < 2 then
    { perimeterMeters := 0, vertexCount := points.length,
      estimatedWalkTimeMinutes := 0 }
  else
    let limit := if isClosed then points.length else points.length - 1
    let perimeter := (List.range limit).foldl
      (fun acc i =>
        acc + d (points.getD i default)
          (points.getD ((i + 1) % points.length) default)) 0
    let walkTime := perimeter / walkSpeed
    { perimeterMeters := jsRound2 perimeter,
      vertexCount := points.length,
      estimatedWalkTimeMinutes := jsRound1 walkTime }

/-- Spec-side formulation: sum of `d` over consecutive pairs of the list. -/
def segSum (d : Point → Point → ℚ) : List Point → ℚ
  | a :: b :: rest => d a b + segSum d (b :: rest)
  | _ => 0

/-- Spec-side formulation: the wrap segment last→first (0 on the empty
list); `t.getLastD h` is the last element of `h :: t`. -/
def wrapSeg (d : Point → Point → ℚ) (points : List Point) : ℚ :=
  match points with
  | [] => 0
  | h :: t => d (t.getLastD h) h

/-- Spec-side full-precision perimeter: consecutive segments, plus the
wrap segment when the shape is closed. -/
def specPerimeter (d : Point → Point → ℚ) (points : List Point)
    (isClosed : Bool) : ℚ :=
  segSum d points + if isClosed then wrapSeg d points else 0

/-- Spec-side metrics (§4.1 of the spec): zero metrics under 2 vertices,
otherwise the full-precision perimeter rounded to 2 decimals and the
full-precision walk time `perimeter / 83.33` rounded to 1 decimal; the
vertex count is always the list length. -/
def specMetrics (d : Point → Point → ℚ) (points : List Point)
    (isClosed : Bool) : SiteMetrics :=
  if points.length < 2 then
    { perimeterMeters := 0, vertexCount := points.length,
      estimatedWalkTimeMinutes := 0 }
  else
    { perimeterMeters := jsRound2 (specPerimeter d points isClosed),
      vertexCount := points.length,
      estimatedWalkTimeMinutes :=
        jsRound1 (specPerimeter d points isClosed / walkSpeed) }

/-! ### SiteEditor state (`SiteEditor.tsx`) -/

/-- The `useState` slices of `SiteEditor` that belong to the capture machine,
ledger and save path (search / panel UI state omitted: it never reaches the
saved Site). -/
structure EditorState where
  points : List Point
  isDrawing : Bool
  isFinished : Bool
  isClosed : Bool
  snapToPoints : Bool
  customTileUrl : String
  contractorCommitment : ℚ
  dailyProgress : List DailyProgress
deriving DecidableEq, Repr

/-- The initial values of `SiteEditor`'s `useState` calls, i.e. the
reconstruction of an editing session from a persisted `site`:
`isDrawing = (site.points.length === 0)`,
`isFinished = (site.points.length > 1)`,
`isClosed = site.isClosed ?? true`,
`customTileUrl = site.customTileUrl || ''`,
`contractorCommitment = site.contractorCommitmentPerDay || 100`,
`dailyProgress = site.dailyProgress || []`.
JavaScript `x || y` treats `undefined`, `0` and `''` as falsy. -/
def initEditorState (site : Site) : EditorState :=
  { points := site.points
    isDrawing := site.points.length = 0
    isFinished := site.points.length > 1
    isClosed := site.isClosed.getD true
    snapToPoints := true
    customTileUrl :=
      match site.customTileUrl with
      | none => ""
      | some u => u
    contractorCommitment :=
      match site.contractorCommitmentPerDay with
      | none => 100
      | some r => if r = 0 then 100 else r
    dailyProgress := site.dailyProgress.getD [] }

/-- `handleUndo` from `SiteEditor.tsx`: if `points.length > 0`, drop the last
point (`points.slice(0, -1)`), set `isFinished` false and `isDrawing` true;
otherwise do nothing. -/
def handleUndo (st : EditorState) : EditorState :=
  if st.points.length > 0 then
    { st with
      points := st.points.dropLast
      isFinished := false
      isDrawing := true }
  else st

/-- `handleClear` from `SiteEditor.tsx`. -/
def handleClear (st : EditorState) : EditorState :=
  { st with points := [], isFinished := false, isDrawing := true }

/-- `handleFinish` from `SiteEditor.tsx`. -/
def handleFinish (st : EditorState) : EditorState :=
  if st.points.length > 1 then
    { st with isFinished := true, isDrawing := false }
  else st

/-- `handleSave` from `SiteEditor.tsx`: the Site value passed to `onSave`,
spreading the session state over the loaded `site`
(`customTileUrl: customTileUrl || undefined`; `metrics` is the render-time
`calculateMetrics(points, isClosed)`). -/
def handleSave (d : Point → Point → ℚ) (site : Site) (st : EditorState) :
    Site :=
  { site with
    points := st.points
    metrics := calculateMetrics d st.points st.isClosed
    isClosed := some st.isClosed
    customTileUrl := if st.customTileUrl = "" then none else some st.customTileUrl
    contractorCommitmentPerDay := some st.contractorCommitment
    dailyProgress := some st.dailyProgress }

/-- `handleAddProgress` from `SiteEditor.tsx`, which reads
`parseFloat(newProgressMeters)`: `metersInput = none` models a `NaN` parse.
On `NaN` or `meters <= 0` it returns without touching the ledger; otherwise
it appends one entry `{id: uuidv4(), date: Date.now(), metersCompleted,
status: 'pending', notes}` (the fresh uuid and clock reading enter as the
parameters `newId` and `now`). -/
def handleAddProgress (st : EditorState) (metersInput : Option ℚ)
    (notes : String) (newId : String) (now : ℤ) : EditorState :=
  match metersInput with
  | none => st
  | some meters =>
    if meters ≤ 0 then st
    else
      { st with dailyProgress := st.dailyProgress ++
          [{ id := newId, date := now, metersCompleted := meters,
             status := Status.pending, notes := some notes }] }

/-- `handleUpdateProgressStatus` from `SiteEditor.tsx`:
`dailyProgress.map(p => p.id === id ? { ...p, status } : p)`. -/
def handleUpdateProgressStatus (l : List DailyProgress) (id : String)
    (status : Status) : List DailyProgress :=
  l.map fun p => if p.id = id then { p with status := status } else p

/-! ### Derived progress figures (`SiteEditor.tsx` lines 40–42) -/

/-- `totalCompleted`: `dailyProgress.reduce((sum, p) =>
sum + (p.status === 'approved' ? p.metersCompleted : 0), 0)`. -/
def totalCompleted (l : List DailyProgress) : ℚ :=
  l.foldl (fun sum p =>
    sum + if p.status = Status.approved then p.metersCompleted else 0) 0

/-- `progressPercentage`: `perimeter > 0 ?
Math.min(100, Math.round((totalCompleted / perimeter) * 100)) : 0`. -/
def progressPercentage (perimeter total : ℚ) : ℤ :=
  if perimeter > 0 then min 100 (jsRound (total / perimeter * 100)) else 0

/-- `daysRemaining`: `contractorCommitment > 0 ?
Math.ceil(Math.max(0, perimeter - totalCompleted) / contractorCommitment)
: 0`. -/
def daysRemaining (commitment perimeter total : ℚ) : ℤ :=
  if commitment > 0 then ⌈max 0 (perimeter - total) / commitment⌉ else 0

/-! ### Snap-to-vertex resolution (`MapCanvas.tsx`, `MapEvents` click handler) -/

/-- `const SNAP_THRESHOLD_PIXELS = 15`. -/
def SNAP_THRESHOLD_PIXELS : ℚ := 15

/-- Squared Euclidean distance between two screen coordinates.  The source
compares the (non-negative) Euclidean distances `clickPoint.distanceTo(...)`
with the threshold and with the running minimum; comparing their squares is
equivalent, so the embedding tracks squares. -/
def sqDist (a b : ℚ × ℚ) : ℚ := (a.1 - b.1) ^ 2 + (a.2 - b.2) ^ 2

/-- One iteration of the `for (const p of points)` loop: replace the running
best `(closestDist, snapTarget)` when `dist < closestDist && dist <=
SNAP_THRESHOLD_PIXELS`.  `acc = none` is the initial
`closestDist = Infinity, snapTarget = null` state (everything is below
`Infinity`). -/
def snapStep (dsq : Point → ℚ) (thr2 : ℚ) (acc : Option (ℚ × Point))
    (p : Point) : Option (ℚ × Point) :=
  match acc with
  | none => if dsq p ≤ thr2 then some (dsq p, p) else none
  | some (c, t) =>
    if dsq p < c ∧ dsq p ≤ thr2 then some (dsq p, p) else some (c, t)

/-- The whole loop over `points`. -/
def snapLoop (dsq : Point → ℚ) (thr2 : ℚ) (pts : List Point) :
    Option (ℚ × Point) :=
  pts.foldl (snapStep dsq thr2) none

/-- The snap resolution performed by the `click` handler of `MapEvents`
(before the resolved point is appended): when `snapToPoints && points.length
> 0`, run the loop with squared distances in the screen space given by the
projector `proj` (the source's `map.latLngToContainerPoint`); if a
`snapTarget` was found, take its `lat`/`lng` as fresh values, else keep the
clicked coordinates. -/
def resolveSnapClick (proj : Point → ℚ × ℚ) (snapToPoints : Bool)
    (pts : List Point) (candidate : Point) : Point :=
  if snapToPoints ∧ 0 < pts.length then
    match snapLoop (fun p => sqDist (proj p) (proj candidate))
        (SNAP_THRESHOLD_PIXELS ^ 2) pts with
    | some (_, t) => { lat := t.lat, lng := t.lng }
    | none => candidate
  else candidate

/-! ### Lemmas: the metrics loop equals the spec-side segment sums -/

lemma foldl_add_range (f : ℕ → ℚ) (k : ℕ) :
    (List.range k).foldl (fun acc i => acc + f i) 0 =
      ∑ i ∈ Finset.range k, f i := by
  induction k with
  | zero => simp
  | succ n ih =>
    rw [List.range_succ, List.foldl_append, ih, Finset.sum_range_succ]
    simp

lemma segSum_nonneg (d : Point → Point → ℚ) (h : ∀ a b, 0 ≤ d a b) :
    ∀ pts : List Point, 0 ≤ segSum d pts
  | [] => le_refl 0
  | [_] => le_refl 0
  | a :: b :: rest => by
    have := segSum_nonneg d h (b :: rest)
    have := h a b
    rw [segSum]
    linarith

/-- The sum over consecutive index pairs equals the structural segment sum. -/
lemma sum_consecutive_eq_segSum (d : Point → Point → ℚ) :
    ∀ pts : List Point,
      ∑ i ∈ Finset.range (pts.length - 1),
        d (pts.getD i default) (pts.getD (i + 1) default) = segSum d pts
  | [] => by simp [segSum]
  | [a] => by simp [segSum]
  | a :: b :: rest => by
    have ih := sum_consecutive_eq_segSum d (b :: rest)
    have hlen : (a :: b :: rest).length - 1 = ((b :: rest).length - 1) + 1 := by
      simp
    rw [hlen, Finset.sum_range_succ']
    simp only [List.getD_cons_succ, List.getD_cons_zero] at ih ⊢
    rw [ih, segSum]
    ring

/-- Inside the open-path range, the `% points.length` in the source index is
the identity. -/
lemma sum_open_mod_eq (d : Point → Point → ℚ) (pts : List Point) :
    ∑ i ∈ Finset.range (pts.length - 1),
        d (pts.getD i default) (pts.getD ((i + 1) % pts.length) default) =
      ∑ i ∈ Finset.range (pts.length - 1),
        d (pts.getD i default) (pts.getD (i + 1) default) := by
  refine Finset.sum_congr rfl fun i hi => ?_
  rw [Finset.mem_range] at hi
  have : i + 1 < pts.length := by omega
  rw [Nat.mod_eq_of_lt this]

/-- The wrap segment in index form. -/
lemma wrapSeg_eq_getD (d : Point → Point → ℚ) (pts : List Point)
    (h : pts ≠ []) :
    wrapSeg d pts =
      d (pts.getD (pts.length - 1) default) (pts.getD 0 default) := by
  match pts, h with
  | p :: t, _ =>
    rw [wrapSeg, ← List.getLast_eq_getLastD, List.getLast_eq_getElem,
      List.getD_eq_getElem, List.getD_cons_zero]
    simp

/-- The closed-loop index sum is the segment sum plus the wrap segment. -/
lemma sum_closed_eq_segSum_add_wrap (d : Point → Point → ℚ)
    (pts : List Point) (h : pts ≠ []) :
    ∑ i ∈ Finset.range pts.length,
        d (pts.getD i default) (pts.getD ((i + 1) % pts.length) default) =
      segSum d pts + wrapSeg d pts := by
  have hlen : 0 < pts.length := List.length_pos.mpr h
  have hsplit : pts.length = (pts.length - 1) + 1 := by omega
  rw [hsplit, Finset.sum_range_succ, ← hsplit]
  rw [sum_open_mod_eq, sum_consecutive_eq_segSum]
  congr 1
  rw [wrapSeg_eq_getD d pts h, Nat.mod_self]

/-- The raw perimeter accumulated by the source loop equals the spec-side
`specPerimeter` whenever at least two vertices are present. -/
lemma loop_perimeter_eq_spec (d : Point → Point → ℚ) (pts : List Point)
    (isClosed : Bool) (h : 2 ≤ pts.length) :
    (List.range (if isClosed then pts.length else pts.length - 1)).foldl
        (fun acc i =>
          acc + d (pts.getD i default)
            (pts.getD ((i + 1) % pts.length) default)) 0 =
      specPerimeter d pts isClosed := by
  have hne : pts ≠ [] := by
    intro hnil
    rw [hnil] at h
    simp at h
  rw [foldl_add_range]
  cases isClosed with
  | false =>
    rw [if_neg (by simp), specPerimeter]
    rw [sum_open_mod_eq, sum_consecutive_eq_segSum]
    simp
  | true =>
    rw [if_pos rfl, specPerimeter]
    rw [sum_closed_eq_segSum_add_wrap d pts hne]
    simp

/-- Shared helper: `calculateMetrics` agrees with the spec-side
`specMetrics` on every input. -/
lemma metrics_eq_spec (d : Point → Point → ℚ) (pts : List Point)
    (isClosed : Bool) :
    calculateMetrics d pts isClosed = specMetrics d pts isClosed := by
  simp only [calculateMetrics, specMetrics]
  by_cases h : pts.length < 2
  · rw [if_pos h, if_pos h]
  · rw [if_neg h, if_neg h, loop_perimeter_eq_spec d pts isClosed (by omega)]

/-- C6: for every vertex list and closure flag (and any great-circle
distance function), `calculateMetrics` returns perimeter 0 and walk time 0
when fewer than 2 vertices are given, and otherwise returns the sum of
distances between consecutive vertices `i, i+1` for `i ∈ [0, limit)` —
`limit = length` when closed (wrapping last→first), `length - 1` when
open — rounded to 2 decimals, together with the full-precision perimeter
divided by 83.33 rounded to 1 decimal; rounding happens only at the
function boundary. -/
theorem calculateMetrics_eq_specMetrics (d : Point → Point → ℚ)
    (pts : List Point) (isClosed : Bool) :
    calculateMetrics d pts isClosed = specMetrics d pts isClosed :=
  metrics_eq_spec d pts isClosed

/-- C10: the `vertexCount` field of `calculateMetrics` always equals the
length of the input vertex list, in both branches and for both closure
flags. -/
theorem calculateMetrics_vertexCount (d : Point → Point → ℚ)
    (pts : List Point) (isClosed : Bool) :
    (calculateMetrics d pts isClosed).vertexCount = pts.length := by
  by_cases h : pts.length < 2 <;> simp [calculateMetrics, h]

/-! ### Monotonicity of the perimeter under appending a vertex (C9) -/

lemma jsRound_le_jsRound {q r : ℚ} (h : q ≤ r) : jsRound q ≤ jsRound r :=
  Int.floor_le_floor (by linarith)

lemma jsRound2_le_jsRound2 {q r : ℚ} (h : q ≤ r) : jsRound2 q ≤ jsRound2 r := by
  have h1 : jsRound (q * 100) ≤ jsRound (r * 100) :=
    jsRound_le_jsRound (by linarith)
  have h2 : (jsRound (q * 100) : ℚ) ≤ (jsRound (r * 100) : ℚ) :=
    Int.cast_le.mpr h1
  rw [jsRound2, jsRound2]
  linarith

lemma jsRound2_nonneg {q : ℚ} (h : 0 ≤ q) : 0 ≤ jsRound2 q := by
  have h1 : jsRound 0 ≤ jsRound (q * 100) := jsRound_le_jsRound (by linarith)
  have h0 : jsRound 0 = 0 := by
    rw [jsRound]
    norm_num
  rw [h0] at h1
  have h2 : (0 : ℚ) ≤ (jsRound (q * 100) : ℚ) := by exact_mod_cast h1
  rw [jsRound2]
  linarith

lemma wrapSeg_nonneg (d : Point → Point → ℚ) (h : ∀ a b, 0 ≤ d a b)
    (pts : List Point) : 0 ≤ wrapSeg d pts := by
  cases pts with
  | nil => simp [wrapSeg]
  | cons p t =>
    rw [wrapSeg]
    exact h _ _

/-- The last element of `h :: t` in `getLastD` form. -/
lemma getLastD_eq_getLast (t : List Point) (h : Point)
    (hne : h :: t ≠ []) : t.getLastD h = (h :: t).getLast hne :=
  (List.getLast_eq_getLastD h t hne).symm

lemma specPerimeter_nonneg (d : Point → Point → ℚ) (h : ∀ a b, 0 ≤ d a b)
    (pts : List Point) (isClosed : Bool) :
    0 ≤ specPerimeter d pts isClosed := by
  rw [specPerimeter]
  have h1 := segSum_nonneg d h pts
  have h2 := wrapSeg_nonneg d h pts
  cases isClosed <;> simp <;> linarith

/-- Appending a vertex adds exactly one segment to the consecutive sum. -/
lemma segSum_append_singleton (d : Point → Point → ℚ) (p : Point) :
    ∀ (t : List Point) (h : Point),
      segSum d ((h :: t) ++ [p]) = segSum d (h :: t) + d (t.getLastD h) p
  | [], h => by simp [segSum]
  | b :: rest, h => by
    have ih := segSum_append_singleton d p rest b
    calc segSum d ((h :: b :: rest) ++ [p])
        = d h b + segSum d ((b :: rest) ++ [p]) := rfl
      _ = d h b + (segSum d (b :: rest) + d (rest.getLastD b) p) := by
          rw [ih]
      _ = segSum d (h :: b :: rest) + d ((b :: rest).getLastD h) p := by
          rw [segSum, List.getLastD_cons]
          ring

lemma wrapSeg_append_singleton (d : Point → Point → ℚ) (p h : Point)
    (t : List Point) :
    wrapSeg d ((h :: t) ++ [p]) = d p h := by
  show wrapSeg d (h :: (t ++ [p])) = d p h
  rw [wrapSeg, List.getLastD_concat]

/-- C9: for every non-negative distance function satisfying the triangle
inequality (as the great-circle distance does), every vertex list, appended
point and closure flag, the perimeter reported by `calculateMetrics` never
decreases when a vertex is appended — for open paths the old segments are
kept, and for closed paths replacing the wrap segment `last→first` by
`last→p→first` cannot shorten it. -/
theorem calculateMetrics_perimeter_mono (d : Point → Point → ℚ)
    (hnn : ∀ a b, 0 ≤ d a b)
    (htri : ∀ a b c, d a c ≤ d a b + d b c)
    (pts : List Point) (p : Point) (isClosed : Bool) :
    (calculateMetrics d pts isClosed).perimeterMeters ≤
      (calculateMetrics d (pts ++ [p]) isClosed).perimeterMeters := by
  rw [metrics_eq_spec, metrics_eq_spec]
  by_cases h2 : pts.length < 2
  · rw [specMetrics, if_pos h2]
    by_cases h2' : (pts ++ [p]).length < 2
    · rw [specMetrics, if_pos h2']
    · rw [specMetrics, if_neg h2']
      exact jsRound2_nonneg (specPerimeter_nonneg d hnn _ _)
  · have hne : pts ≠ [] := by
      intro hnil
      rw [hnil] at h2
      simp at h2
    have h2' : ¬((pts ++ [p]).length < 2) := by
      rw [List.length_append]
      omega
    rw [specMetrics, specMetrics, if_neg h2, if_neg h2']
    apply jsRound2_le_jsRound2
    obtain ⟨h, t, rfl⟩ : ∃ h t, pts = h :: t := by
      cases pts with
      | nil => exact absurd rfl hne
      | cons h t => exact ⟨h, t, rfl⟩
    have hseg := segSum_append_singleton d p t h
    cases isClosed with
    | false =>
      rw [specPerimeter, specPerimeter]
      simp only [Bool.false_eq_true, if_false]
      rw [hseg]
      have := hnn (t.getLastD h) p
      linarith
    | true =>
      rw [specPerimeter, specPerimeter]
      simp only [if_true]
      rw [hseg, wrapSeg_append_singleton, wrapSeg]
      have htr := htri (t.getLastD h) p h
      linarith

/-- Taxicab distance on coordinates: a concrete non-negative distance
satisfying the triangle inequality, used to instantiate C9's witness. -/
def dTaxi (a b : Point) : ℚ := |a.lat - b.lat| + |a.lng - b.lng|

/-- Witness for C9 at a concrete two-vertex closed path. -/
theorem calculateMetrics_perimeter_mono_witness :
    (calculateMetrics dTaxi [⟨0, 0⟩, ⟨0, 1⟩] true).perimeterMeters ≤
      (calculateMetrics dTaxi ([⟨0, 0⟩, ⟨0, 1⟩] ++ [⟨1, 1⟩])
        true).perimeterMeters :=
  calculateMetrics_perimeter_mono dTaxi
    (fun a b => add_nonneg (abs_nonneg _) (abs_nonneg _))
    (fun a b c => by
      rw [dTaxi, dTaxi, dTaxi]
      have h1 := abs_sub_le a.lat b.lat c.lat
      have h2 := abs_sub_le a.lng b.lng c.lng
      linarith)
    [⟨0, 0⟩, ⟨0, 1⟩] ⟨1, 1⟩ true

/-! ### Session reconstruction (C2) -/

/-- A persisted site with exactly one traced vertex. -/
def siteOneVertex : Site :=
  { id := "s1", name := "one", createdAt := 0, points := [⟨0, 0⟩],
    metrics := ⟨0, 1, 0⟩, isClosed := some true, customTileUrl := none,
    contractorCommitmentPerDay := some 50, dailyProgress := some [] }

/-- C2 counterexample: reconstructing a session from a persisted Site with
exactly one vertex does **not** start in the Finished phase — `isFinished`
is initialised from `site.points.length > 1`, not `≥ 1`, so a one-vertex
site starts with both `isDrawing` and `isFinished` false. -/
theorem initEditorState_one_vertex_not_finished :
    1 ≤ siteOneVertex.points.length ∧
      (initEditorState siteOneVertex).isFinished = false ∧
      (initEditorState siteOneVertex).isDrawing = false := by
  refine ⟨by decide, ?_, ?_⟩ <;> rfl

/-- C2 (amended): reconstructing an editing session from a persisted Site
starts in phase Empty (`isDrawing`, not `isFinished`) when the site has no
vertices, in phase Finished (drawing off, finished on) when it has at least
**two** vertices, and with both flags off when it has exactly one vertex. -/
theorem initEditorState_phase (site : Site) :
    (site.points.length = 0 →
      (initEditorState site).isDrawing = true ∧
        (initEditorState site).isFinished = false) ∧
    (site.points.length = 1 →
      (initEditorState site).isDrawing = false ∧
        (initEditorState site).isFinished = false) ∧
    (2 ≤ site.points.length →
      (initEditorState site).isDrawing = false ∧
        (initEditorState site).isFinished = true) := by
  refine ⟨fun h => ?_, fun h => ?_, fun h => ?_⟩
  · simp [initEditorState, h]
  · simp [initEditorState, h]
  · have hne : site.points ≠ [] := by
      intro he
      rw [he] at h
      simp at h
    have h1 : 1 < site.points.length := h
    simp [initEditorState, hne, h1]

/-- A persisted site with two traced vertices. -/
def siteTwoVertices : Site :=
  { id := "s2", name := "two", createdAt := 0, points := [⟨0, 0⟩, ⟨1, 1⟩],
    metrics := ⟨0, 2, 0⟩, isClosed := some true, customTileUrl := none,
    contractorCommitmentPerDay := some 50, dailyProgress := some [] }

/-- Witness for C2's amended statement at a two-vertex site. -/
theorem initEditorState_phase_witness :
    (initEditorState siteTwoVertices).isDrawing = false ∧
      (initEditorState siteTwoVertices).isFinished = true :=
  (initEditorState_phase siteTwoVertices).2.2 (by decide)

/-! ### Undo (C5) -/

/-- A session in the Finished phase holding two vertices. -/
def finishedState : EditorState :=
  { points := [⟨0, 0⟩, ⟨1, 1⟩], isDrawing := false, isFinished := true,
    isClosed := true, snapToPoints := true, customTileUrl := "",
    contractorCommitment := 100, dailyProgress := [] }

/-- C5 counterexample: `handleUndo` does **not** reject the call in the
Finished phase — with a non-empty vertex list it removes the last vertex
and flips the phase flags, even though `isFinished` is true (only the UI
disables the button). -/
theorem handleUndo_finished_not_noop :
    finishedState.isFinished = true ∧
      (handleUndo finishedState).points ≠ finishedState.points ∧
      (handleUndo finishedState).points = [⟨0, 0⟩] ∧
      (handleUndo finishedState).isFinished = false := by
  refine ⟨rfl, by decide, rfl, rfl⟩

/-- C5 (amended): `handleUndo` on an empty vertex list is a no-op; on a
non-empty list — in **every** phase, Finished included — it removes exactly
the last vertex, sets `isDrawing` and clears `isFinished`, and leaves all
other session fields unchanged. -/
theorem handleUndo_spec (st : EditorState) :
    (st.points = [] → handleUndo st = st) ∧
    (st.points ≠ [] →
      handleUndo st =
        { st with
          points := st.points.dropLast
          isDrawing := true
          isFinished := false }) := by
  constructor
  · intro h
    simp [handleUndo, h]
  · intro h
    have : 0 < st.points.length := List.length_pos.mpr h
    simp only [handleUndo, if_pos this]

/-- A session mid-drawing with one vertex. -/
def drawingState : EditorState :=
  { points := [⟨0, 0⟩], isDrawing := true, isFinished := false,
    isClosed := true, snapToPoints := true, customTileUrl := "",
    contractorCommitment := 100, dailyProgress := [] }

/-- Witness for C5's amended statement. -/
theorem handleUndo_spec_witness :
    handleUndo drawingState =
      { drawingState with
        points := drawingState.points.dropLast
        isDrawing := true
        isFinished := false } :=
  (handleUndo_spec drawingState).2 (by decide)

/-! ### Ledger review (C1) -/

/-- An already-approved ledger entry. -/
def approvedEntry : DailyProgress :=
  { id := "e1", date := 0, metersCompleted := 100,
    status := Status.approved, notes := none }

/-- C1 counterexample: `handleUpdateProgressStatus` re-reviews a
non-pending entry — on a ledger holding one already-approved entry,
setting its status to `rejected` succeeds (the ledger changes and the
entry ends up rejected) instead of failing with
`InvalidTransition`/`IllegalTransition` or leaving the ledger unchanged. -/
theorem setStatus_rereviews_approved_entry :
    handleUpdateProgressStatus [approvedEntry] "e1" Status.rejected ≠
        [approvedEntry] ∧
      handleUpdateProgressStatus [approvedEntry] "e1" Status.rejected =
        [{ approvedEntry with status := Status.rejected }] := by
  refine ⟨by decide, rfl⟩

/-- C1 (amended): `handleUpdateProgressStatus` maps over the ledger and sets
the status of **every** entry whose id matches, regardless of the entry's
current status (approved→rejected and rejected→approved succeed); when no
entry has the given id the ledger comes back unchanged, with no error
signalled; entries not matching the id are untouched.  One-review-only is
enforced only by the UI, which hides the buttons for non-pending entries. -/
theorem setStatus_spec (l : List DailyProgress) (id : String) (s : Status) :
    ((∀ p ∈ l, p.id ≠ id) → handleUpdateProgressStatus l id s = l) ∧
    (∀ i : ℕ, (handleUpdateProgressStatus l id s)[i]? =
      l[i]?.map fun p =>
        if p.id = id then { p with status := s } else p) := by
  constructor
  · intro h
    rw [handleUpdateProgressStatus]
    conv_rhs => rw [← List.map_id l]
    refine List.map_congr_left fun p hp => ?_
    rw [if_neg (h p hp)]
    rfl
  · intro i
    rw [handleUpdateProgressStatus, List.getElem?_map]

/-- Witness for C1's amended statement: an id absent from the ledger leaves
it unchanged. -/
theorem setStatus_spec_witness :
    handleUpdateProgressStatus [approvedEntry] "zz" Status.rejected =
      [approvedEntry] :=
  (setStatus_spec [approvedEntry] "zz" Status.rejected).1 (by decide)

/-! ### Adding progress entries (C8) -/

/-- C8: `handleAddProgress` rejects a `NaN` parse (`metersInput = none`)
or any `meters ≤ 0`, leaving the ledger — and the whole session —
unchanged; for `meters > 0` it appends exactly one entry with status
`pending` and the current timestamp to the end of the ledger, leaving all
existing entries untouched.  (The rejection is a silent early return: the
`InvalidInput` failure of the spec is signalled only by the ledger staying
unchanged.) -/
theorem handleAddProgress_spec (st : EditorState) (metersInput : Option ℚ)
    (notes newId : String) (now : ℤ) :
    ((metersInput = none ∨ ∃ m, metersInput = some m ∧ m ≤ 0) →
      handleAddProgress st metersInput notes newId now = st) ∧
    (∀ m : ℚ, metersInput = some m → 0 < m →
      handleAddProgress st metersInput notes newId now =
        { st with dailyProgress := st.dailyProgress ++
            [{ id := newId, date := now, metersCompleted := m,
               status := Status.pending, notes := some notes }] }) := by
  constructor
  · rintro (rfl | ⟨m, rfl, hm⟩)
    · rfl
    · rw [handleAddProgress]
      simp [hm]
  · rintro m rfl hm
    rw [handleAddProgress]
    simp [not_le.mpr hm]

/-- Witness for C8 at a concrete positive amount. -/
theorem handleAddProgress_spec_witness :
    handleAddProgress drawingState (some 5) "dug trench" "e9" 42 =
      { drawingState with dailyProgress := drawingState.dailyProgress ++
          [{ id := "e9", date := 42, metersCompleted := 5,
             status := Status.pending, notes := some "dug trench" }] } :=
  (handleAddProgress_spec drawingState (some 5) "dug trench" "e9" 42).2
    5 rfl (by norm_num)

/-! ### Derived progress figures (C4) -/

lemma foldl_add_eq_sum (f : DailyProgress → ℚ) :
    ∀ (l : List DailyProgress) (a : ℚ),
      l.foldl (fun s p => s + f p) a = a + (l.map f).sum
  | [], a => by simp
  | p :: t, a => by
    rw [List.foldl_cons, foldl_add_eq_sum f t, List.map_cons, List.sum_cons]
    ring

lemma map_if_sum_eq_filter_sum :
    ∀ l : List DailyProgress,
      (l.map fun p =>
          if p.status = Status.approved then p.metersCompleted else 0).sum =
        ((l.filter fun p => p.status = Status.approved).map
          DailyProgress.metersCompleted).sum
  | [] => by simp
  | p :: t => by
    rw [List.map_cons, List.sum_cons, map_if_sum_eq_filter_sum t,
      List.filter_cons]
    by_cases h : p.status = Status.approved
    · simp [h]
    · simp [h]

/-- The single approved 100 m entry of the spec's end-to-end example. -/
def exampleLedger : List DailyProgress :=
  [{ id := "p1", date := 0, metersCompleted := 100,
     status := Status.approved, notes := none }]

/-- C4 counterexample: with a zero commitment rate the code's
`daysRemaining` is the plain number 0 — a defined, finite value — not the
undefined/∞ the claim states (the `: 0` arm of the conditional). -/
theorem daysRemaining_zero_rate_finite :
    daysRemaining 0 400 100 = 0 ∧
      ((daysRemaining 0 400 100 : ℤ) : WithTop ℤ) ≠ (⊤ : WithTop ℤ) := by
  constructor
  · rw [daysRemaining]
    norm_num
  · rw [daysRemaining]
    norm_num

/-- C4 (amended): `totalCompleted` sums `metersCompleted` over the approved
entries only; `progressPercentage` is `min(100, round(100·total/perimeter))`
and 0 when the perimeter is 0; `daysRemaining` is
`ceil(max(0, perimeter − total) / rate)` when the commitment rate is
positive and the sentinel **0** (not undefined/∞) otherwise.  The spec's
end-to-end example holds: rate 50, perimeter 400 and one approved 100 m
entry give 25 % and 6 days. -/
theorem progress_figures_spec (l : List DailyProgress) (perimeter rate : ℚ) :
    totalCompleted l =
        ((l.filter fun p => p.status = Status.approved).map
          DailyProgress.metersCompleted).sum ∧
    (0 < perimeter → progressPercentage perimeter (totalCompleted l) =
        min 100 (jsRound (100 * totalCompleted l / perimeter))) ∧
    (perimeter = 0 → progressPercentage perimeter (totalCompleted l) = 0) ∧
    (0 < rate → daysRemaining rate perimeter (totalCompleted l) =
        ⌈max 0 (perimeter - totalCompleted l) / rate⌉) ∧
    (rate ≤ 0 → daysRemaining rate perimeter (totalCompleted l) = 0) ∧
    progressPercentage 400 (totalCompleted exampleLedger) = 25 ∧
    daysRemaining 50 400 (totalCompleted exampleLedger) = 6 := by
  refine ⟨?_, fun h => ?_, fun h => ?_, fun h => ?_, fun h => ?_, ?_, ?_⟩
  · rw [totalCompleted, foldl_add_eq_sum, map_if_sum_eq_filter_sum]
    ring
  · rw [progressPercentage, if_pos h]
    congr 2
    ring
  · rw [progressPercentage, h]
    norm_num
  · rw [daysRemaining, if_pos h]
  · rw [daysRemaining, if_neg (not_lt.mpr h)]
  · rw [show totalCompleted exampleLedger = 100 by simp [totalCompleted, exampleLedger], progressPercentage]
    norm_num [jsRound]
  · rw [show totalCompleted exampleLedger = 100 by simp [totalCompleted, exampleLedger], daysRemaining]
    norm_num

/-- Witness for C4's amended statement at the example figures. -/
theorem progress_figures_spec_witness :
    progressPercentage 400 (totalCompleted exampleLedger) =
        min 100 (jsRound (100 * totalCompleted exampleLedger / 400)) ∧
      daysRemaining 50 400 (totalCompleted exampleLedger) =
        ⌈max 0 (400 - totalCompleted exampleLedger) / 50⌉ :=
  ⟨(progress_figures_spec exampleLedger 400 50).2.1 (by norm_num),
   (progress_figures_spec exampleLedger 400 50).2.2.2.1 (by norm_num)⟩

/-! ### Round trip through save (C3) -/

/-- The degenerate distance function used to instantiate counterexamples
and witnesses (the metrics of an empty vertex list do not depend on it). -/
def dZero : Point → Point → ℚ := fun _ _ => 0

/-- A valid persisted site (per §3: commitment rate is a float ≥ 0, here 0)
whose stored metrics match its vertices. -/
def siteZeroRate : Site :=
  { id := "s0", name := "zero", createdAt := 0, points := [],
    metrics := ⟨0, 0, 0⟩, isClosed := some true, customTileUrl := none,
    contractorCommitmentPerDay := some 0, dailyProgress := some [] }

/-- C3 counterexample: loading and immediately saving is **not** the
identity on every valid site with matching metrics — a stored commitment
rate of 0 is falsy in `site.contractorCommitmentPerDay || 100`, so the
snapshot comes back with rate 100. -/
theorem roundtrip_not_identity_zero_rate :
    siteZeroRate.metrics =
        calculateMetrics dZero siteZeroRate.points
          (siteZeroRate.isClosed.getD true) ∧
      handleSave dZero siteZeroRate (initEditorState siteZeroRate) ≠
        siteZeroRate ∧
      (handleSave dZero siteZeroRate
          (initEditorState siteZeroRate)).contractorCommitmentPerDay =
        some 100 := by
  refine ⟨rfl, ?_, rfl⟩
  intro h
  have := congrArg Site.contractorCommitmentPerDay h
  simp [handleSave, initEditorState, siteZeroRate] at this

/-- C3 (amended): `fromPersisted` then `snapshot` is the identity on every
valid Site whose stored metrics equal `calculateMetrics` of its vertices
and closure flag, **provided** the persisted optional fields survive the
falsy-coalescing defaults: `isClosed` is present, `customTileUrl` is absent
or non-empty, `contractorCommitmentPerDay` is present and non-zero, and
`dailyProgress` is present.  Points, closure flag, metrics, commitment
rate, custom tile URL and ledger then all come back unchanged. -/
theorem handleSave_roundtrip (d : Point → Point → ℚ) (site : Site)
    (hmet : site.metrics =
      calculateMetrics d site.points (site.isClosed.getD true))
    (hclosed : site.isClosed.isSome = true)
    (htile : site.customTileUrl ≠ some "")
    (hrate : ∃ r, site.contractorCommitmentPerDay = some r ∧ r ≠ 0)
    (hledger : site.dailyProgress.isSome = true) :
    handleSave d site (initEditorState site) = site := by
  obtain ⟨r, hr, hr0⟩ := hrate
  obtain ⟨b, hb⟩ := Option.isSome_iff_exists.mp hclosed
  obtain ⟨dp, hdp⟩ := Option.isSome_iff_exists.mp hledger
  rw [handleSave, initEditorState]
  cases site with
  | mk id name createdAt points metrics isClosed customTileUrl rate0 dps =>
    simp only at hmet hr hb hdp htile
    subst hr hb hdp
    simp only [Site.mk.injEq, Option.getD_some, true_and, and_true]
    refine ⟨hmet.symm, ?_, ?_⟩
    · cases customTileUrl with
      | none => simp
      | some u =>
        have hu : u ≠ "" := fun he => htile (by rw [he])
        simp [hu]
    · simp [hr0]

/-- A pending ledger entry for the round-trip witness site. -/
def pendingEntry : DailyProgress :=
  { id := "p1", date := 3, metersCompleted := 10,
    status := Status.pending, notes := some "n" }

/-- A valid persisted site exercising every preserved field. -/
def siteRound : Site :=
  { id := "s3", name := "round", createdAt := 7,
    points := [⟨0, 0⟩, ⟨0, 1⟩, ⟨1, 1⟩],
    metrics := calculateMetrics dZero [⟨0, 0⟩, ⟨0, 1⟩, ⟨1, 1⟩] false,
    isClosed := some false, customTileUrl := some "https://tiles.example/x",
    contractorCommitmentPerDay := some 50,
    dailyProgress := some [pendingEntry] }

/-- Witness for C3's amended statement at a fully-populated site. -/
theorem handleSave_roundtrip_witness :
    handleSave dZero siteRound (initEditorState siteRound) = siteRound :=
  handleSave_roundtrip dZero siteRound rfl rfl (by decide)
    ⟨50, rfl, by norm_num⟩ rfl

/-! ### Snap resolution (C7) -/

/-- What the claim calls "the closest such vertex, first vertex in iteration
order winning ties": `t` occurs at some position `i` of `pts`, its squared
distance `c = dsq t` is within the squared threshold, every vertex strictly
before position `i` is either beyond the threshold or strictly farther than
`t`, and no vertex of `pts` within the threshold is closer than `t`. -/
def SnapGood (dsq : Point → ℚ) (thr2 : ℚ) (pts : List Point) (c : ℚ)
    (t : Point) : Prop :=
  c = dsq t ∧ c ≤ thr2 ∧
  (∃ i : ℕ, pts[i]? = some t ∧
    ∀ j < i, ∀ r : Point, pts[j]? = some r → dsq r ≤ thr2 → c < dsq r) ∧
  (∀ r ∈ pts, dsq r ≤ thr2 → c ≤ dsq r)

lemma snapFold_above (dsq : Point → ℚ) (thr2 : ℚ) :
    ∀ (pts : List Point) (acc : Option (ℚ × Point)),
      (∀ p ∈ pts, thr2 < dsq p) →
      pts.foldl (snapStep dsq thr2) acc = acc
  | [], _, _ => rfl
  | p :: rest, acc, h => by
    have hp : thr2 < dsq p := h p (List.mem_cons_self p rest)
    have hstep : snapStep dsq thr2 acc p = acc := by
      match acc with
      | none =>
        show (if dsq p ≤ thr2 then some (dsq p, p) else none) = none
        rw [if_neg (not_le.mpr hp)]
      | some (c, t) =>
        show (if dsq p < c ∧ dsq p ≤ thr2 then some (dsq p, p)
          else some (c, t)) = some (c, t)
        rw [if_neg]
        rintro ⟨-, h2⟩
        exact absurd h2 (not_le.mpr hp)
    rw [List.foldl_cons, hstep]
    exact snapFold_above dsq thr2 rest acc fun q hq =>
      h q (List.mem_cons_of_mem p hq)

/-- The two accumulator shapes of the snap loop, characterised together:
starting from `none` a `some` result is a first-closest-within-threshold
vertex; starting from `some (c0, t0)` the result is either the accumulator
itself (then nothing in the list within threshold beats it) or a strictly
better first-closest-within-threshold vertex. -/
lemma snapFold_spec (dsq : Point → ℚ) (thr2 : ℚ) :
    ∀ pts : List Point,
      (∀ c t, pts.foldl (snapStep dsq thr2) none = some (c, t) →
        SnapGood dsq thr2 pts c t) ∧
      (∀ c0 t0 c t,
        pts.foldl (snapStep dsq thr2) (some (c0, t0)) = some (c, t) →
        ((c = c0 ∧ t = t0 ∧ ∀ r ∈ pts, dsq r ≤ thr2 → c0 ≤ dsq r) ∨
          (c < c0 ∧ SnapGood dsq thr2 pts c t)))
  | [] => by
    constructor
    · intro c t h
      exact absurd h (by simp)
    · intro c0 t0 c t h
      simp only [List.foldl_nil, Option.some.injEq, Prod.mk.injEq] at h
      exact Or.inl ⟨h.1.symm, h.2.symm, by simp⟩
  | p :: rest => by
    obtain ⟨ihn, ihs⟩ := snapFold_spec dsq thr2 rest
    constructor
    · intro c t h
      rw [List.foldl_cons, snapStep] at h
      by_cases hp : dsq p ≤ thr2
      · rw [if_pos hp] at h
        rcases ihs (dsq p) p c t h with ⟨rfl, rfl, hmin⟩ | ⟨hlt, hg⟩
        · refine ⟨rfl, hp, ⟨0, by simp, by omega⟩, ?_⟩
          intro r hr _hr2
          rcases List.mem_cons.mp hr with rfl | hr'
          · exact le_refl _
          · exact hmin r hr' _hr2
        · obtain ⟨hc, hthr, ⟨i, hi, hbefore⟩, hmin⟩ := hg
          refine ⟨hc, hthr, ⟨i + 1, by simpa using hi, ?_⟩, ?_⟩
          · intro j hj r hr hr2
            match j with
            | 0 =>
              simp only [List.getElem?_cons_zero, Option.some.injEq] at hr
              subst hr
              exact hlt
            | j + 1 =>
              exact hbefore j (by omega) r (by simpa using hr) hr2
          · intro r hr hr2
            rcases List.mem_cons.mp hr with rfl | hr'
            · exact le_of_lt hlt
            · exact hmin r hr' hr2
      · rw [if_neg hp] at h
        obtain ⟨hc, hthr, ⟨i, hi, hbefore⟩, hmin⟩ := ihn c t h
        refine ⟨hc, hthr, ⟨i + 1, by simpa using hi, ?_⟩, ?_⟩
        · intro j hj r hr hr2
          match j with
          | 0 =>
            simp only [List.getElem?_cons_zero, Option.some.injEq] at hr
            subst hr
            exact absurd hr2 hp
          | j + 1 =>
            exact hbefore j (by omega) r (by simpa using hr) hr2
        · intro r hr hr2
          rcases List.mem_cons.mp hr with rfl | hr'
          · exact absurd hr2 hp
          · exact hmin r hr' hr2
    · intro c0 t0 c t h
      rw [List.foldl_cons, snapStep] at h
      by_cases hcond : dsq p < c0 ∧ dsq p ≤ thr2
      · rw [if_pos hcond] at h
        rcases ihs (dsq p) p c t h with ⟨rfl, rfl, hmin⟩ | ⟨hlt, hg⟩
        · refine Or.inr ⟨hcond.1, rfl, hcond.2, ⟨0, by simp, by omega⟩, ?_⟩
          intro r hr hr2
          rcases List.mem_cons.mp hr with rfl | hr'
          · exact le_refl _
          · exact hmin r hr' hr2
        · obtain ⟨hc, hthr, ⟨i, hi, hbefore⟩, hmin⟩ := hg
          refine Or.inr ⟨hlt.trans hcond.1, hc, hthr,
            ⟨i + 1, by simpa using hi, ?_⟩, ?_⟩
          · intro j hj r hr hr2
            match j with
            | 0 =>
              simp only [List.getElem?_cons_zero, Option.some.injEq] at hr
              subst hr
              exact hlt
            | j + 1 =>
              exact hbefore j (by omega) r (by simpa using hr) hr2
          · intro r hr hr2
            rcases List.mem_cons.mp hr with rfl | hr'
            · exact le_of_lt hlt
            · exact hmin r hr' hr2
      · rw [if_neg hcond] at h
        rcases ihs c0 t0 c t h with ⟨rfl, rfl, hmin⟩ | ⟨hlt, hg⟩
        · refine Or.inl ⟨rfl, rfl, ?_⟩
          intro r hr hr2
          rcases List.mem_cons.mp hr with rfl | hr'
          · by_contra hcon
            exact hcond ⟨not_le.mp hcon, hr2⟩
          · exact hmin r hr' hr2
        · obtain ⟨hc, hthr, ⟨i, hi, hbefore⟩, hmin⟩ := hg
          have hp0 : dsq p ≤ thr2 → c0 ≤ dsq p := by
            intro h2
            by_contra hcon
            exact hcond ⟨not_le.mp hcon, h2⟩
          refine Or.inr ⟨hlt, hc, hthr,
            ⟨i + 1, by simpa using hi, ?_⟩, ?_⟩
          · intro j hj r hr hr2
            match j with
            | 0 =>
              simp only [List.getElem?_cons_zero, Option.some.injEq] at hr
              subst hr
              exact lt_of_lt_of_le hlt (hp0 hr2)
            | j + 1 =>
              exact hbefore j (by omega) r (by simpa using hr) hr2
          · intro r hr hr2
            rcases List.mem_cons.mp hr with rfl | hr'
            · exact (hlt.trans_le (hp0 hr2)).le
            · exact hmin r hr' hr2

lemma snapFold_some_ne_none (dsq : Point → ℚ) (thr2 : ℚ) :
    ∀ (pts : List Point) (c0 : ℚ) (t0 : Point),
      pts.foldl (snapStep dsq thr2) (some (c0, t0)) ≠ none
  | [], _, _ => by simp
  | p :: rest, c0, t0 => by
    rw [List.foldl_cons, snapStep]
    by_cases hcond : dsq p < c0 ∧ dsq p ≤ thr2
    · rw [if_pos hcond]
      exact snapFold_some_ne_none dsq thr2 rest (dsq p) p
    · rw [if_neg hcond]
      exact snapFold_some_ne_none dsq thr2 rest c0 t0

lemma snapFold_exists_some (dsq : Point → ℚ) (thr2 : ℚ) :
    ∀ pts : List Point, (∃ p ∈ pts, dsq p ≤ thr2) →
      pts.foldl (snapStep dsq thr2) none ≠ none
  | [], h => by
    obtain ⟨p, hp, -⟩ := h
    exact absurd hp (by simp)
  | p :: rest, h => by
    rw [List.foldl_cons, snapStep]
    by_cases hp : dsq p ≤ thr2
    · rw [if_pos hp]
      exact snapFold_some_ne_none dsq thr2 rest (dsq p) p
    · rw [if_neg hp]
      refine snapFold_exists_some dsq thr2 rest ?_
      obtain ⟨q, hq, hq2⟩ := h
      rcases List.mem_cons.mp hq with rfl | hq'
      · exact absurd hq2 hp
      · exact ⟨q, hq', hq2⟩

/-- C7: snap resolution of a map click.  When snapping is disabled, the
vertex list is empty, or every existing vertex projects farther than the
15 px threshold from the projected candidate, the candidate comes back
unchanged; when some vertex is within the threshold, the result is a fresh
point carrying the exact coordinates of the closest such vertex, the first
vertex in iteration order winning ties (`SnapGood`), which is therefore
also no farther than any other vertex of the list. -/
theorem resolveSnapClick_spec (proj : Point → ℚ × ℚ) (snap : Bool)
    (pts : List Point) (candidate : Point) :
    (snap = false → resolveSnapClick proj snap pts candidate = candidate) ∧
    (pts = [] → resolveSnapClick proj snap pts candidate = candidate) ∧
    ((∀ p ∈ pts,
        SNAP_THRESHOLD_PIXELS ^ 2 < sqDist (proj p) (proj candidate)) →
      resolveSnapClick proj snap pts candidate = candidate) ∧
    (snap = true →
      (∃ p ∈ pts,
        sqDist (proj p) (proj candidate) ≤ SNAP_THRESHOLD_PIXELS ^ 2) →
      ∃ t : Point,
        resolveSnapClick proj snap pts candidate =
            { lat := t.lat, lng := t.lng } ∧
          SnapGood (fun p => sqDist (proj p) (proj candidate))
            (SNAP_THRESHOLD_PIXELS ^ 2) pts
            (sqDist (proj t) (proj candidate)) t) := by
  refine ⟨fun h => ?_, fun h => ?_, fun h => ?_, fun hs h => ?_⟩
  · rw [resolveSnapClick, if_neg]
    rintro ⟨hb, -⟩
    rw [h] at hb
    exact Bool.false_ne_true hb
  · rw [resolveSnapClick, if_neg]
    rintro ⟨-, hlen⟩
    rw [h] at hlen
    exact absurd hlen (by simp)
  · rw [resolveSnapClick]
    by_cases hc : (snap : Prop) ∧ 0 < pts.length
    · rw [if_pos hc, snapLoop, snapFold_above _ _ _ _ h]
    · rw [if_neg hc]
  · obtain ⟨q, hq, hq2⟩ := h
    have hlen : 0 < pts.length := List.length_pos.mpr (by
      rintro rfl
      exact absurd hq (by simp))
    rw [resolveSnapClick, if_pos ⟨by simp [hs], hlen⟩]
    set dsq : Point → ℚ := fun p => sqDist (proj p) (proj candidate) with hdsq
    have hne := snapFold_exists_some dsq (SNAP_THRESHOLD_PIXELS ^ 2) pts
      ⟨q, hq, hq2⟩
    rw [snapLoop]
    match hres : pts.foldl (snapStep dsq (SNAP_THRESHOLD_PIXELS ^ 2)) none with
    | none => exact absurd hres hne
    | some (c, t) =>
      have hg := (snapFold_spec dsq (SNAP_THRESHOLD_PIXELS ^ 2) pts).1 c t hres
      refine ⟨t, rfl, ?_⟩
      have hc : sqDist (proj t) (proj candidate) = c := hg.1.symm
      rw [hc]
      exact hg

/-- Concrete projector for the C7 witness: identity on coordinates. -/
def projId : Point → ℚ × ℚ := fun p => (p.lat, p.lng)

/-- Witness for C7: clicking at `(3, 4)` with vertices at `(0, 0)` and
`(100, 100)` finds a snap target (squared distance 25 ≤ 225). -/
theorem resolveSnapClick_spec_witness :
    ∃ t : Point,
      resolveSnapClick projId true [⟨0, 0⟩, ⟨100, 100⟩] ⟨3, 4⟩ =
          { lat := t.lat, lng := t.lng } ∧
        SnapGood (fun p => sqDist (projId p) (projId ⟨3, 4⟩))
          (SNAP_THRESHOLD_PIXELS ^ 2) [⟨0, 0⟩, ⟨100, 100⟩]
          (sqDist (projId t) (projId ⟨3, 4⟩)) t :=
  (resolveSnapClick_spec projId true [⟨0, 0⟩, ⟨100, 100⟩] ⟨3, 4⟩).2.2.2 rfl
    ⟨⟨0, 0⟩, by simp, by norm_num [sqDist, projId, SNAP_THRESHOLD_PIXELS]⟩

end JobSite
